import Mathlib

/-!
# Verification of the Battle Arena combat engine

A shallow embedding of the combat core of `battlearena.py`
(`BattleArenaApp.init_warrior_state` and `BattleArenaApp.simulate_battle`),
together with proofs of the specified properties.

Modelling conventions:
* Python floats are modelled as exact rationals (`ℚ`).
* The simulation clock is driven by a tick counter `n : ℕ`; the simulated
  time of tick `n` is `n / 10` seconds (the source advances `time` by `0.1`
  per loop iteration, starting at `0`, bounded by `max_time = 300`, i.e. at
  most `3000` ticks).  The source's regeneration guard `time % 1 == 0`
  (time is a whole number of seconds) becomes `n % 10 = 0`.
* The non-seeded random source is modelled as an explicit stream
  `rng : ℕ → ℚ` of uniform draws in `[0,1)`, consumed in order; the state
  carries the index of the next unconsumed draw.  `random.random()` reads
  one draw; `random.uniform(a, b)` maps a draw `r` to `a + r * (b - a)`;
  `random.choice(xs)` maps a draw `r` to the element at index
  `min ⌊r * len⌋ (len - 1)`.
* The source decides an attacker's side with `attacker in team1_states`
  (list membership); this embedding tracks the side and position of the
  attacker directly, which agrees with the source whenever the combatant
  states of the two teams are pairwise distinct.
-/

/-- The three warrior types (Tough, Dexterous, Smart). -/
inductive WarriorType where
  | tough
  | dexterous
  | smart
deriving DecidableEq

/-- A warrior record as stored in `warriors.csv`: the numeric fields
`tough, inctough, dex, incdex, smart, incsmart, min_dmg, max_dmg,
attack_time` plus `name` and `type`.  The `inc*` growth fields are carried
by the source but unused by the combat core. -/
structure Warrior where
  name : String
  wtype : WarriorType
  tough : ℚ
  inctough : ℚ
  dex : ℚ
  incdex : ℚ
  smart : ℚ
  incsmart : ℚ
  min_dmg : ℚ
  max_dmg : ℚ
  attack_time : ℚ
deriving DecidableEq

/-- An item record: eight additive bonuses. -/
structure Item where
  name : String
  add_tough : ℚ
  add_dex : ℚ
  add_smart : ℚ
  add_hp : ℚ
  add_hp_regen : ℚ
  add_dmg : ℚ
  add_defense : ℚ
  add_attack_speed : ℚ
deriving DecidableEq

/-- The per-combatant battle state built by `init_warrior_state`. -/
structure CombatState where
  name : String
  wtype : WarriorType
  hp : ℚ
  max_hp : ℚ
  hp_regen : ℚ
  defense : ℚ
  min_dmg : ℚ
  max_dmg : ℚ
  cooldown : ℚ
  next_attack : ℚ
  stun_end : ℚ
  stun_immune : ℚ
  stun_diminish : ℚ
deriving DecidableEq

/-- `BattleArenaApp.init_warrior_state` (battlearena.py lines 514-579):
derive the combat state of one warrior with an optional item. -/
def init_warrior_state (w : Warrior) (item : Option Item) : CombatState :=
  -- stats['tough'] += item['add_tough'], etc.
  let tough := w.tough + (match item with | some i => i.add_tough | none => 0)
  let dex := w.dex + (match item with | some i => i.add_dex | none => 0)
  let smart := w.smart + (match item with | some i => i.add_smart | none => 0)
  -- derived stats
  let base_hp : ℚ := 150
  let hp := base_hp + tough * 20 + (match item with | some i => i.add_hp | none => 0)
  let hp_regen := 0.25 + tough * 0.05
      + (match item with | some i => i.add_hp_regen | none => 0)
  let defense := dex * 2 + (match item with | some i => i.add_defense | none => 0)
  let attack_speed := dex + (match item with | some i => i.add_attack_speed | none => 0)
  let min_dmg := w.min_dmg + smart * 3 + (match item with | some i => i.add_dmg | none => 0)
  let max_dmg := w.max_dmg + smart * 3 + (match item with | some i => i.add_dmg | none => 0)
  let base_cooldown := w.attack_time
  let actual_cooldown := base_cooldown / (1 + attack_speed / 100)
  { name := w.name
    wtype := w.wtype
    hp := hp
    max_hp := hp
    hp_regen := hp_regen
    defense := defense
    min_dmg := min_dmg
    max_dmg := max_dmg
    cooldown := actual_cooldown
    next_attack := actual_cooldown
    stun_end := 0
    stun_immune := 0
    stun_diminish := 1 }

/-- Battle-log events emitted by the simulation loop. -/
inductive BEvent where
  | regen (actor : String) (amount : ℚ)
  | miss (attacker target : String)
  | bonus (attacker target : String)
  | stun (attacker target : String) (duration : ℚ)
  | damage (attacker target : String) (finalDamage rolledDamage : ℚ)
  | defeat (actor : String)
deriving DecidableEq

/-- The terminal outcome of a battle. -/
inductive Outcome where
  | team1Victory
  | team2Victory
  | draw
deriving DecidableEq

/-- `random.uniform(a, b)` applied to a unit draw `r`. -/
def uniform (r a b : ℚ) : ℚ := a + r * (b - a)

/-- `random.choice` index selection: a unit draw `r` picks index
`min ⌊r * n⌋ (n - 1)` of a sequence of length `n`. -/
def chooseIndex (r : ℚ) (n : ℕ) : ℕ :=
  min (⌊r * n⌋.toNat) (n - 1)

/-- The damage computation of the simulation loop (lines 664-666):
`damage_reduction = (0.06 * defense) / (1 + 0.06 * defense)`;
`final_damage = max(1, base_damage * (1 - damage_reduction) * bonus_dmg)`. -/
def final_damage_calc (base_damage defense bonus_dmg : ℚ) : ℚ :=
  let damage_reduction := (0.06 * defense) / (1 + 0.06 * defense)
  max 1 (base_damage * (1 - damage_reduction) * bonus_dmg)

/-- The stun side effects of a successful stun (lines 657-660): the stun
duration is the target's current `stun_diminish`; the target's
`stun_end` becomes `time + stun_duration`, its `stun_immune` becomes
`time + stun_duration + 1`, and its `stun_diminish` is halved. -/
def applyStun (t : ℚ) (target : CombatState) : ℚ × CombatState :=
  let stun_duration := target.stun_diminish
  (stun_duration,
    { target with
      stun_end := t + stun_duration
      stun_immune := t + stun_duration + 1
      stun_diminish := target.stun_diminish * 0.5 })

/-- The outcome of the type-advantage block of one attack. -/
structure Matchup where
  miss : Bool
  bonus_dmg : ℚ
  stun : Bool
  stun_duration : ℚ
  events : List BEvent
  idx : ℕ
deriving DecidableEq

/-- The type-advantage block (lines 640-662).  Exactly one attacker/defender
type pair can match; a unit draw is consumed if and only if a pair matches.
The stun branch additionally requires `time >= target['stun_immune']` and
mutates the target via `applyStun`. -/
def resolveMatchup (rng : ℕ → ℚ) (idx : ℕ) (t : ℚ) (attacker target : CombatState) :
    Matchup × CombatState :=
  if attacker.wtype = .smart ∧ target.wtype = .dexterous then
    if rng idx < 0.2 then
      (⟨true, 1, false, 0, [.miss attacker.name target.name], idx + 1⟩, target)
    else
      (⟨false, 1, false, 0, [], idx + 1⟩, target)
  else if attacker.wtype = .smart ∧ target.wtype = .tough then
    if rng idx < 0.2 then
      (⟨false, 1.5, false, 0, [.bonus attacker.name target.name], idx + 1⟩, target)
    else
      (⟨false, 1, false, 0, [], idx + 1⟩, target)
  else if attacker.wtype = .tough ∧ target.wtype = .dexterous then
    if rng idx < 0.2 ∧ target.stun_immune ≤ t then
      let s := applyStun t target
      (⟨false, 1, true, s.1, [.stun attacker.name target.name s.1], idx + 1⟩, s.2)
    else
      (⟨false, 1, false, 0, [], idx + 1⟩, target)
  else
    (⟨false, 1, false, 0, [], idx⟩, target)

/-- One attack of `attacker` against `target` at time `t` (lines 640-680):
the type-advantage block, then — unless the attack missed — a uniform
damage roll in `[min_dmg, max_dmg]` reduced by the defense formula and
subtracted from the target's hp (with a defeat event when hp drops to 0 or
below); in every case the attacker's `next_attack` is advanced to
`t + cooldown`.  Returns the updated attacker, updated target, emitted
events, and the next unconsumed draw index. -/
def resolveAttack (rng : ℕ → ℚ) (idx : ℕ) (t : ℚ) (attacker target : CombatState) :
    CombatState × CombatState × List BEvent × ℕ :=
  let mt := resolveMatchup rng idx t attacker target
  let m := mt.1
  let target1 := mt.2
  if m.miss then
    ({ attacker with next_attack := t + attacker.cooldown }, target1, m.events, m.idx)
  else
    let base_damage := uniform (rng m.idx) attacker.min_dmg attacker.max_dmg
    let final_damage := final_damage_calc base_damage target1.defense m.bonus_dmg
    let target2 := { target1 with hp := target1.hp - final_damage }
    let evs := m.events ++ [.damage attacker.name target2.name final_damage base_damage]
      ++ (if target2.hp ≤ 0 then [.defeat target2.name] else [])
    ({ attacker with next_attack := t + attacker.cooldown }, target2, evs, m.idx + 1)

/-- The mutable state of one tick sweep: the two team lists, the index of
the next unconsumed random draw, and the event log so far. -/
structure TickCtx where
  team1 : List CombatState
  team2 : List CombatState
  idx : ℕ
  events : List BEvent
deriving DecidableEq

/-- The working state of one attack phase: the attacking team, the opposing
team, the next unconsumed draw index, and the event log. -/
structure TurnState where
  myTeam : List CombatState
  targets : List CombatState
  idx : ℕ
  events : List BEvent
deriving DecidableEq

/-- The attack turn of the combatant at position `i` of the attacking team
(lines 620-680): skip if defeated, stunned, or not yet ready; otherwise
pick a uniformly random living member of the opposing team (skip with no
effect when none is alive) and resolve the attack, writing the updated
attacker and target back into their teams. -/
def attackTurn (rng : ℕ → ℚ) (t : ℚ) (i : ℕ) (ts : TurnState) : TurnState :=
  match ts.myTeam[i]? with
  | none => ts
  | some attacker =>
    if attacker.hp ≤ 0 then ts
    else if t < attacker.stun_end then ts
    else if t < attacker.next_attack then ts
    else
      let aliveIdxs := (List.range ts.targets.length).filter
        (fun j => decide (0 < (ts.targets.getD j attacker).hp))
      if aliveIdxs = [] then ts
      else
        let j := aliveIdxs.getD (chooseIndex (rng ts.idx) aliveIdxs.length) 0
        let target := ts.targets.getD j attacker
        let r := resolveAttack rng (ts.idx + 1) t attacker target
        { myTeam := ts.myTeam.set i r.1
          targets := ts.targets.set j r.2.1
          idx := r.2.2.2
          events := ts.events ++ r.2.2.1 }

/-- Regeneration of one combatant (lines 613-617): an actor with
`0 < hp < max_hp` gains `min(hp_regen, max_hp - hp)` and emits a regen
event; any other actor is unchanged. -/
def regenOne (s : CombatState) : CombatState × List BEvent :=
  if 0 < s.hp ∧ s.hp < s.max_hp then
    let regen := min s.hp_regen (s.max_hp - s.hp)
    ({ s with hp := s.hp + regen }, [.regen s.name regen])
  else
    (s, [])

/-- Regeneration sweep over one team, collecting the events in order. -/
def regenTeam (team : List CombatState) : List CombatState × List BEvent :=
  match team with
  | [] => ([], [])
  | s :: rest =>
    let r := regenOne s
    let rr := regenTeam rest
    (r.1 :: rr.1, r.2 ++ rr.2)

/-- The regeneration phase of a tick (lines 611-617): `regenOne` applied to
every member of team 1 then team 2. -/
def processRegen (c : TickCtx) : TickCtx :=
  let r1 := regenTeam c.team1
  let r2 := regenTeam c.team2
  { team1 := r1.1, team2 := r2.1, idx := c.idx, events := c.events ++ r1.2 ++ r2.2 }

/-- `any(w['hp'] > 0 for w in team)`. -/
def anyAlive (team : List CombatState) : Bool :=
  team.any (fun s => decide (0 < s.hp))

/-- One attack phase: the turns of every index of the attacking team, in
list order. -/
def attackPhase (rng : ℕ → ℚ) (t : ℚ) (ts : TurnState) : TurnState :=
  (List.range ts.myTeam.length).foldl (fun acc i => attackTurn rng t i acc) ts

/-- One 0.1-second tick at tick counter `n` (simulated time `n / 10`):
the regeneration phase when the time is a whole number of seconds, then the
attack turns of team 1 in list order, then those of team 2. -/
def runTick (rng : ℕ → ℚ) (n : ℕ) (c : TickCtx) : TickCtx :=
  let t : ℚ := (n : ℚ) / 10
  let c1 := if n % 10 = 0 then processRegen c else c
  let p1 := attackPhase rng t ⟨c1.team1, c1.team2, c1.idx, c1.events⟩
  let p2 := attackPhase rng t ⟨p1.targets, p1.myTeam, p1.idx, p1.events⟩
  { team1 := p2.targets, team2 := p2.myTeam, idx := p2.idx, events := p2.events }

/-- The `while time < max_time` loop (lines 608-694): run ticks, breaking
as soon as a team has no living member; `fuel` is the number of remaining
loop iterations permitted by the time limit.  Returns the final context and
the total number of executed ticks (counting the `n` ticks already run). -/
def runBattle (rng : ℕ → ℚ) : ℕ → ℕ → TickCtx → TickCtx × ℕ
  | 0, n, c => (c, n)
  | fuel + 1, n, c =>
    let c1 := runTick rng n c
    if anyAlive c1.team1 && anyAlive c1.team2 then
      runBattle rng fuel (n + 1) c1
    else
      (c1, n + 1)

/-- The victory declaration (lines 699-706): `if not team2_alive` is
checked first, then `elif not team1_alive`, else a draw. -/
def declare_outcome (team1_alive team2_alive : Bool) : Outcome :=
  if !team2_alive then .team1Victory
  else if !team1_alive then .team2Victory
  else .draw

/-- The structured result of `simulate_battle`: final team states, event
log, outcome, total executed ticks, and total consumed random draws. -/
structure BattleResult where
  team1 : List CombatState
  team2 : List CombatState
  events : List BEvent
  outcome : Outcome
  ticks : ℕ
  draws : ℕ
deriving DecidableEq

/-- `BattleArenaApp.simulate_battle` (lines 581-708): build the initial
states of both teams, run the simulation loop with a 300-second limit
(3000 ticks), and declare the outcome from the final alive checks. -/
def simulate_battle (rng : ℕ → ℚ) (team1 team2 : List (Warrior × Option Item)) :
    BattleResult :=
  let c0 : TickCtx :=
    { team1 := team1.map (fun p => init_warrior_state p.1 p.2)
      team2 := team2.map (fun p => init_warrior_state p.1 p.2)
      idx := 0
      events := [] }
  let r := runBattle rng 3000 0 c0
  { team1 := r.1.team1
    team2 := r.1.team2
    events := r.1.events
    outcome := declare_outcome (anyAlive r.1.team1) (anyAlive r.1.team2)
    ticks := r.2
    draws := r.1.idx }

/-- The additive bonus of an optional item under accessor `f` (absence
contributes `0`). -/
def itemBonus (item : Option Item) (f : Item → ℚ) : ℚ :=
  match item with
  | some i => f i
  | none => 0

/-- Reference formula from the spec: `max_hp = 150 + effective_toughness ×
20 + (item?.add_hp or 0)`. -/
def spec_max_hp (w : Warrior) (item : Option Item) : ℚ :=
  150 + (w.tough + itemBonus item Item.add_tough) * 20 + itemBonus item Item.add_hp

/-- Reference formula from the spec: `hp_regen = 0.25 + effective_toughness
× 0.05 + (item?.add_hp_regen or 0)`. -/
def spec_hp_regen (w : Warrior) (item : Option Item) : ℚ :=
  0.25 + (w.tough + itemBonus item Item.add_tough) * 0.05 + itemBonus item Item.add_hp_regen

/-- Reference formula from the spec: `defense = effective_dexterity × 2 +
(item?.add_defense or 0)`. -/
def spec_defense (w : Warrior) (item : Option Item) : ℚ :=
  (w.dex + itemBonus item Item.add_dex) * 2 + itemBonus item Item.add_defense

/-- Reference formula from the spec: `min_dmg = warrior.min_base_damage +
effective_intelligence × 3 + (item?.add_dmg or 0)`. -/
def spec_min_dmg (w : Warrior) (item : Option Item) : ℚ :=
  w.min_dmg + (w.smart + itemBonus item Item.add_smart) * 3 + itemBonus item Item.add_dmg

/-- Reference formula from the spec: `max_dmg = warrior.max_base_damage +
effective_intelligence × 3 + (item?.add_dmg or 0)`. -/
def spec_max_dmg (w : Warrior) (item : Option Item) : ℚ :=
  w.max_dmg + (w.smart + itemBonus item Item.add_smart) * 3 + itemBonus item Item.add_dmg

/-- Reference formula from the spec: `cooldown = warrior.base_attack_time /
(1 + attack_speed_stat / 100)` with `attack_speed_stat =
effective_dexterity + (item?.add_attack_speed or 0)`. -/
def spec_cooldown (w : Warrior) (item : Option Item) : ℚ :=
  w.attack_time /
    (1 + (w.dex + itemBonus item Item.add_dex + itemBonus item Item.add_attack_speed) / 100)

/-- The all-zero random stream, used for concrete witnesses. -/
def rngZero : ℕ → ℚ := fun _ => 0

/-- A second random stream, extensionally but not syntactically zero on
every index, used to witness stream-insensitivity. -/
def rngZero2 : ℕ → ℚ := fun _ => 0 * 1

/-- The hp invariant: every combatant of both teams has `hp ≤ max_hp`. -/
def hpInv (c : TickCtx) : Prop :=
  ∀ s, s ∈ c.team1 ++ c.team2 → s.hp ≤ s.max_hp

/-- The hp invariant on a turn state: every combatant of both sides has
`hp ≤ max_hp`. -/
def hpInvT (ts : TurnState) : Prop :=
  ∀ s, s ∈ ts.myTeam ++ ts.targets → s.hp ≤ s.max_hp

/-- Two random streams agree on the first `N` draws. -/
def Agree (rng1 rng2 : ℕ → ℚ) (N : ℕ) : Prop :=
  ∀ k, k < N → rng1 k = rng2 k

/-- A concrete Tough warrior (the spec's scenario stats). -/
def wTough : Warrior := ⟨"TW", .tough, 5, 0, 0, 0, 0, 0, 10, 15, 2⟩

/-- A concrete warrior whose attack cooldown (1000 s) exceeds the battle
time limit, so it never attacks. -/
def wSlow : Warrior := ⟨"SW", .tough, 5, 0, 0, 0, 0, 0, 1, 1, 1000⟩

/-- A concrete Smart combatant state, ready to attack at time 0. -/
def sSmart : CombatState := ⟨"S", .smart, 100, 100, 1, 0, 5, 10, 2, 0, 0, 0, 1⟩

/-- A concrete Dexterous combatant state. -/
def sDex : CombatState := ⟨"D", .dexterous, 100, 100, 1, 0, 5, 10, 2, 0, 0, 0, 1⟩

/-- A concrete defeated Dexterous combatant state (hp below 0). -/
def sDexDead : CombatState := ⟨"DD", .dexterous, -5, 100, 1, 0, 5, 10, 2, 0, 0, 0, 1⟩

/-- A concrete Tough combatant state. -/
def sTough : CombatState := ⟨"T", .tough, 100, 100, 1, 0, 5, 10, 2, 0, 0, 0, 1⟩

/-- The initial tick context of the 1v1 `wSlow` battle. -/
def ctxSlow : TickCtx :=
  ⟨[init_warrior_state wSlow none], [init_warrior_state wSlow none], 0, []⟩

theorem regenOne_max_hp (s : CombatState) : (regenOne s).1.max_hp = s.max_hp := by
  unfold regenOne
  split <;> rfl

theorem regenOne_hp_le (s : CombatState) (h : s.hp ≤ s.max_hp) :
    (regenOne s).1.hp ≤ (regenOne s).1.max_hp := by
  unfold regenOne
  split
  · rename_i hc
    simp only
    have := min_le_right s.hp_regen (s.max_hp - s.hp)
    linarith
  · exact h

theorem regenTeam_hp_le (team : List CombatState)
    (h : ∀ s ∈ team, s.hp ≤ s.max_hp) :
    ∀ s ∈ (regenTeam team).1, s.hp ≤ s.max_hp := by
  induction team with
  | nil => intro s hs; simp [regenTeam] at hs
  | cons a rest ih =>
    intro s hs
    simp only [regenTeam, List.mem_cons] at hs
    rcases hs with rfl | hs
    · have := regenOne_hp_le a (h a (by simp))
      rw [regenOne_max_hp] at this
      rw [regenOne_max_hp]
      exact this
    · exact ih (fun x hx => h x (List.mem_cons_of_mem _ hx)) s hs

theorem processRegen_hpInv (c : TickCtx) (h : hpInv c) : hpInv (processRegen c) := by
  intro s hs
  simp only [processRegen, List.mem_append] at hs
  rcases hs with hs | hs
  · exact regenTeam_hp_le c.team1 (fun x hx => h x (List.mem_append_left _ hx)) s hs
  · exact regenTeam_hp_le c.team2 (fun x hx => h x (List.mem_append_right _ hx)) s hs

theorem getD_mem_or {α : Type} (l : List α) (n : ℕ) (d : α) :
    l.getD n d ∈ l ∨ l.getD n d = d := by
  rw [List.getD_eq_getElem?_getD]
  rcases hg : l[n]? with _ | a
  · right; rfl
  · left; exact List.getElem?_mem hg

theorem resolveMatchup_target_hp (rng : ℕ → ℚ) (idx : ℕ) (t : ℚ)
    (a tg : CombatState) :
    (resolveMatchup rng idx t a tg).2.hp = tg.hp ∧
    (resolveMatchup rng idx t a tg).2.max_hp = tg.max_hp ∧
    (resolveMatchup rng idx t a tg).2.defense = tg.defense := by
  unfold resolveMatchup applyStun
  split_ifs <;> simp

theorem resolveAttack_attacker (rng : ℕ → ℚ) (idx : ℕ) (t : ℚ) (a tg : CombatState) :
    (resolveAttack rng idx t a tg).1 = { a with next_attack := t + a.cooldown } := by
  by_cases hm : (resolveMatchup rng idx t a tg).1.miss <;> simp [resolveAttack, hm]

theorem resolveAttack_target_hp (rng : ℕ → ℚ) (idx : ℕ) (t : ℚ) (a tg : CombatState) :
    (resolveAttack rng idx t a tg).2.1.hp ≤ tg.hp ∧
    (resolveAttack rng idx t a tg).2.1.max_hp = tg.max_hp := by
  obtain ⟨h1, h2, -⟩ := resolveMatchup_target_hp rng idx t a tg
  by_cases hm : (resolveMatchup rng idx t a tg).1.miss
  · simp only [resolveAttack, hm, if_pos]
    exact ⟨le_of_eq h1, h2⟩
  · have hfd : 1 ≤ final_damage_calc
        (uniform (rng (resolveMatchup rng idx t a tg).1.idx) a.min_dmg a.max_dmg)
        (resolveMatchup rng idx t a tg).2.defense
        (resolveMatchup rng idx t a tg).1.bonus_dmg := le_max_left _ _
    rw [Bool.not_eq_true] at hm
    simp only [resolveAttack, hm, Bool.false_eq_true, if_false]
    refine ⟨?_, h2⟩
    rw [h1] at *
    linarith

theorem hpInv_set_pair (A B : List CombatState) (i j : ℕ) (a1 b1 : CombatState)
    (hA : ∀ s ∈ A, s.hp ≤ s.max_hp) (hB : ∀ s ∈ B, s.hp ≤ s.max_hp)
    (ha1 : a1.hp ≤ a1.max_hp) (hb1 : b1.hp ≤ b1.max_hp) :
    ∀ s ∈ (A.set i a1) ++ (B.set j b1), s.hp ≤ s.max_hp := by
  intro s hs
  rcases List.mem_append.1 hs with hs | hs
  · rcases List.mem_or_eq_of_mem_set hs with hmem | rfl
    · exact hA s hmem
    · exact ha1
  · rcases List.mem_or_eq_of_mem_set hs with hmem | rfl
    · exact hB s hmem
    · exact hb1

theorem attackTurn_hpInvT (rng : ℕ → ℚ) (t : ℚ) (i : ℕ) (ts : TurnState)
    (h : hpInvT ts) : hpInvT (attackTurn rng t i ts) := by
  have hM : ∀ s ∈ ts.myTeam, s.hp ≤ s.max_hp :=
    fun s hs => h s (List.mem_append_left _ hs)
  have hT : ∀ s ∈ ts.targets, s.hp ≤ s.max_hp :=
    fun s hs => h s (List.mem_append_right _ hs)
  rcases hg : ts.myTeam[i]? with _ | attacker
  · simp only [attackTurn, hg]
    exact h
  · have hatt_inv : attacker.hp ≤ attacker.max_hp := hM attacker (List.getElem?_mem hg)
    simp only [attackTurn, hg]
    split_ifs with h1 h2 h3 h4
    · exact h
    · exact h
    · exact h
    · exact h
    · set j := ((List.range ts.targets.length).filter
        (fun k => decide (0 < (ts.targets.getD k attacker).hp))).getD
          (chooseIndex (rng ts.idx) ((List.range ts.targets.length).filter
            (fun k => decide (0 < (ts.targets.getD k attacker).hp))).length) 0 with hjdef
      set target := ts.targets.getD j attacker with htgtdef
      have htarget_inv : target.hp ≤ target.max_hp := by
        rcases getD_mem_or ts.targets j attacker with hmem | heq
        · exact hT target hmem
        · rw [htgtdef, heq]; exact hatt_inv
      have hnew_att : (resolveAttack rng (ts.idx + 1) t attacker target).1.hp ≤
          (resolveAttack rng (ts.idx + 1) t attacker target).1.max_hp := by
        rw [resolveAttack_attacker]; exact hatt_inv
      have hnew_tgt : (resolveAttack rng (ts.idx + 1) t attacker target).2.1.hp ≤
          (resolveAttack rng (ts.idx + 1) t attacker target).2.1.max_hp := by
        obtain ⟨hhp, hmax⟩ := resolveAttack_target_hp rng (ts.idx + 1) t attacker target
        rw [hmax]; exact le_trans hhp htarget_inv
      exact hpInv_set_pair ts.myTeam ts.targets i j _ _ hM hT hnew_att hnew_tgt

theorem attackPhase_hpInvT (rng : ℕ → ℚ) (t : ℚ) (ts : TurnState)
    (h : hpInvT ts) : hpInvT (attackPhase rng t ts) := by
  unfold attackPhase
  generalize List.range ts.myTeam.length = l
  induction l generalizing ts with
  | nil => exact h
  | cons a rest ih =>
    simp only [List.foldl_cons]
    exact ih _ (attackTurn_hpInvT rng t a ts h)

theorem hpInvT_swap (ts : TurnState) (h : hpInvT ts) :
    hpInvT ⟨ts.targets, ts.myTeam, ts.idx, ts.events⟩ := by
  intro s hs
  simp only [List.mem_append] at hs ⊢
  exact h s (by simpa [List.mem_append, or_comm] using hs)

theorem runTick_hpInv (rng : ℕ → ℚ) (n : ℕ) (c : TickCtx) (h : hpInv c) :
    hpInv (runTick rng n c) := by
  unfold runTick
  set c1 := if n % 10 = 0 then processRegen c else c with hc1
  have hinv1 : hpInv c1 := by
    rw [hc1]
    split
    · exact processRegen_hpInv c h
    · exact h
  have hts1 : hpInvT ⟨c1.team1, c1.team2, c1.idx, c1.events⟩ := hinv1
  have hp1 := attackPhase_hpInvT rng ((n : ℚ) / 10) _ hts1
  have hts2 := hpInvT_swap _ hp1
  have hp2 := attackPhase_hpInvT rng ((n : ℚ) / 10) _ hts2
  have := hpInvT_swap _ hp2
  exact this

theorem runBattle_hpInv (rng : ℕ → ℚ) (fuel n : ℕ) (c : TickCtx) (h : hpInv c) :
    hpInv (runBattle rng fuel n c).1 := by
  induction fuel generalizing n c with
  | zero => exact h
  | succ fuel ih =>
    simp only [runBattle]
    split
    · exact ih (n + 1) _ (runTick_hpInv rng n c h)
    · exact runTick_hpInv rng n c h

theorem runBattle_ticks_le (rng : ℕ → ℚ) (fuel n : ℕ) (c : TickCtx) :
    (runBattle rng fuel n c).2 ≤ n + fuel := by
  induction fuel generalizing n c with
  | zero => exact Nat.le_add_right n 0
  | succ fuel ih =>
    by_cases hcond : (anyAlive (runTick rng n c).team1 && anyAlive (runTick rng n c).team2) = true
    · simp only [runBattle]
      rw [if_pos hcond]
      have := ih (n + 1) (runTick rng n c)
      omega
    · simp only [runBattle]
      rw [if_neg hcond]
      omega

theorem runBattle_full (rng : ℕ → ℚ) (fuel n : ℕ) (c : TickCtx)
    (h1 : anyAlive (runBattle rng fuel n c).1.team1 = true)
    (h2 : anyAlive (runBattle rng fuel n c).1.team2 = true) :
    (runBattle rng fuel n c).2 = n + fuel := by
  induction fuel generalizing n c with
  | zero => rfl
  | succ fuel ih =>
    by_cases hcond : (anyAlive (runTick rng n c).team1 && anyAlive (runTick rng n c).team2) = true
    · simp only [runBattle] at h1 h2 ⊢
      rw [if_pos hcond] at h1 h2 ⊢
      have := ih (n + 1) (runTick rng n c) h1 h2
      omega
    · simp only [runBattle] at h1 h2 ⊢
      rw [if_neg hcond] at h1 h2
      exact absurd ((Bool.and_eq_true _ _).symm ▸ (⟨h1, h2⟩ : _ ∧ _)) hcond

theorem runBattle_stall (rng : ℕ → ℚ) (c : TickCtx)
    (halive : (anyAlive c.team1 && anyAlive c.team2) = true)
    (hfix : ∀ m, m < 3000 → runTick rng m c = c) :
    ∀ fuel n, n + fuel ≤ 3000 → runBattle rng fuel n c = (c, n + fuel) := by
  intro fuel
  induction fuel with
  | zero => intro n _; rfl
  | succ fuel ih =>
    intro n hn
    have hm : n < 3000 := by omega
    simp only [runBattle, hfix n hm]
    rw [if_pos halive]
    rw [ih (n + 1) (by omega)]
    congr 1
    omega

theorem init_wSlow :
    init_warrior_state wSlow none =
      ⟨"SW", .tough, 250, 250, 1/2, 0, 1, 1, 1000, 1000, 0, 0, 1⟩ := by
  simp only [init_warrior_state, wSlow]
  norm_num

theorem runTick_ctxSlow (rng : ℕ → ℚ) (m : ℕ) (hm : m < 3000) :
    runTick rng m ctxSlow = ctxSlow := by
  have hs := init_wSlow
  have hregen : processRegen ctxSlow = ctxSlow := by
    simp only [ctxSlow, processRegen, regenTeam, regenOne, hs]
    norm_num
  have ht : ((m : ℚ) / 10) < 1000 := by
    have : (m : ℚ) < 3000 := by exact_mod_cast hm
    linarith
  have hturn : attackTurn rng ((m : ℚ) / 10) 0
      (⟨[init_warrior_state wSlow none], [init_warrior_state wSlow none], 0, []⟩ : TurnState) =
      (⟨[init_warrior_state wSlow none], [init_warrior_state wSlow none], 0, []⟩ : TurnState) := by
    simp only [attackTurn, hs]
    norm_num
    intro h0 habs
    exfalso
    linarith
  have hphase : attackPhase rng ((m : ℚ) / 10)
      ⟨[init_warrior_state wSlow none], [init_warrior_state wSlow none], 0, []⟩ =
      ⟨[init_warrior_state wSlow none], [init_warrior_state wSlow none], 0, []⟩ := by
    have hr1 : List.range 1 = [0] := rfl
    simp only [attackPhase]
    simp only [List.length_singleton, hr1, List.foldl_cons, List.foldl_nil]
    exact hturn
  have hcases : (if m % 10 = 0 then processRegen ctxSlow else ctxSlow) = ctxSlow := by
    split
    · exact hregen
    · rfl
  simp only [runTick]
  rw [hcases]
  simp only [ctxSlow]
  simp only [hphase]

theorem Agree_mono {rng1 rng2 : ℕ → ℚ} {N M : ℕ} (h : Agree rng1 rng2 N) (hle : M ≤ N) :
    Agree rng1 rng2 M :=
  fun k hk => h k (lt_of_lt_of_le hk hle)

theorem resolveMatchup_idx_mono (rng : ℕ → ℚ) (idx : ℕ) (t : ℚ) (a tg : CombatState) :
    idx ≤ (resolveMatchup rng idx t a tg).1.idx := by
  unfold resolveMatchup
  split_ifs <;> simp

theorem resolveMatchup_idx_le (rng : ℕ → ℚ) (idx : ℕ) (t : ℚ) (a tg : CombatState) :
    (resolveMatchup rng idx t a tg).1.idx ≤ idx + 1 := by
  unfold resolveMatchup
  split_ifs <;> simp

theorem resolveMatchup_congr {rng1 rng2 : ℕ → ℚ} (idx : ℕ) (t : ℚ) (a tg : CombatState)
    (h : Agree rng1 rng2 (resolveMatchup rng1 idx t a tg).1.idx) :
    resolveMatchup rng1 idx t a tg = resolveMatchup rng2 idx t a tg := by
  by_cases hc1 : a.wtype = .smart ∧ tg.wtype = .dexterous
  · have hidx : (resolveMatchup rng1 idx t a tg).1.idx = idx + 1 := by
      simp only [resolveMatchup, if_pos hc1]
      split_ifs <;> rfl
    have hkey : rng1 idx = rng2 idx := h idx (by omega)
    simp only [resolveMatchup, if_pos hc1, hkey]
  · by_cases hc2 : a.wtype = .smart ∧ tg.wtype = .tough
    · have hidx : (resolveMatchup rng1 idx t a tg).1.idx = idx + 1 := by
        simp only [resolveMatchup, if_neg hc1, if_pos hc2]
        split_ifs <;> rfl
      have hkey : rng1 idx = rng2 idx := h idx (by omega)
      simp only [resolveMatchup, if_neg hc1, if_pos hc2, hkey]
    · by_cases hc3 : a.wtype = .tough ∧ tg.wtype = .dexterous
      · have hidx : (resolveMatchup rng1 idx t a tg).1.idx = idx + 1 := by
          simp only [resolveMatchup, if_neg hc1, if_neg hc2, if_pos hc3]
          split_ifs <;> rfl
        have hkey : rng1 idx = rng2 idx := h idx (by omega)
        simp only [resolveMatchup, if_neg hc1, if_neg hc2, if_pos hc3, hkey]
      · simp only [resolveMatchup, if_neg hc1, if_neg hc2, if_neg hc3]

theorem resolveAttack_idx_mono (rng : ℕ → ℚ) (idx : ℕ) (t : ℚ) (a tg : CombatState) :
    idx ≤ (resolveAttack rng idx t a tg).2.2.2 := by
  have h1 := resolveMatchup_idx_mono rng idx t a tg
  by_cases hm : (resolveMatchup rng idx t a tg).1.miss
  · simp only [resolveAttack, hm, if_pos]
    exact h1
  · rw [Bool.not_eq_true] at hm
    simp only [resolveAttack, hm, Bool.false_eq_true, if_false]
    omega

theorem resolveAttack_matchup_idx_le (rng : ℕ → ℚ) (idx : ℕ) (t : ℚ) (a tg : CombatState) :
    (resolveMatchup rng idx t a tg).1.idx ≤ (resolveAttack rng idx t a tg).2.2.2 := by
  by_cases hm : (resolveMatchup rng idx t a tg).1.miss
  · simp only [resolveAttack, hm, if_pos]
    exact le_refl _
  · rw [Bool.not_eq_true] at hm
    simp only [resolveAttack, hm, Bool.false_eq_true, if_false]
    omega

theorem resolveAttack_congr {rng1 rng2 : ℕ → ℚ} (idx : ℕ) (t : ℚ) (a tg : CombatState)
    (h : Agree rng1 rng2 (resolveAttack rng1 idx t a tg).2.2.2) :
    resolveAttack rng1 idx t a tg = resolveAttack rng2 idx t a tg := by
  have hmc : resolveMatchup rng1 idx t a tg = resolveMatchup rng2 idx t a tg :=
    resolveMatchup_congr idx t a tg
      (Agree_mono h (resolveAttack_matchup_idx_le rng1 idx t a tg))
  by_cases hm : (resolveMatchup rng1 idx t a tg).1.miss
  · simp only [resolveAttack, hm, if_pos, hmc]
    rw [← hmc]
    simp [hm]
  · have hkey : rng1 (resolveMatchup rng1 idx t a tg).1.idx =
        rng2 (resolveMatchup rng1 idx t a tg).1.idx := by
      apply h
      rw [Bool.not_eq_true] at hm
      simp only [resolveAttack, hm, Bool.false_eq_true, if_false]
      omega
    rw [Bool.not_eq_true] at hm
    simp only [resolveAttack, hm, Bool.false_eq_true, if_false, hmc, hkey]
    rw [← hmc]
    rw [hkey]

theorem attackTurn_idx_mono (rng : ℕ → ℚ) (t : ℚ) (i : ℕ) (ts : TurnState) :
    ts.idx ≤ (attackTurn rng t i ts).idx := by
  rcases hg : ts.myTeam[i]? with _ | attacker
  · simp only [attackTurn, hg]
    exact le_refl _
  · simp only [attackTurn, hg]
    split_ifs with h1 h2 h3 h4
    · exact le_refl _
    · exact le_refl _
    · exact le_refl _
    · exact le_refl _
    · simp only
      have := resolveAttack_idx_mono rng (ts.idx + 1) t attacker
        (ts.targets.getD
          (((List.range ts.targets.length).filter
            (fun j => decide (0 < (ts.targets.getD j attacker).hp))).getD
              (chooseIndex (rng ts.idx) ((List.range ts.targets.length).filter
                (fun j => decide (0 < (ts.targets.getD j attacker).hp))).length) 0) attacker)
      omega

theorem attackTurn_congr {rng1 rng2 : ℕ → ℚ} (t : ℚ) (i : ℕ) (ts : TurnState)
    (h : Agree rng1 rng2 (attackTurn rng1 t i ts).idx) :
    attackTurn rng1 t i ts = attackTurn rng2 t i ts := by
  rcases hg : ts.myTeam[i]? with _ | attacker
  · simp only [attackTurn, hg]
  · by_cases h1 : attacker.hp ≤ 0
    · simp only [attackTurn, hg, if_pos h1]
    · by_cases h2 : t < attacker.stun_end
      · simp only [attackTurn, hg, if_neg h1, if_pos h2]
      · by_cases h3 : t < attacker.next_attack
        · simp only [attackTurn, hg, if_neg h1, if_neg h2, if_pos h3]
        · by_cases h4 : ((List.range ts.targets.length).filter
              (fun j => decide (0 < (ts.targets.getD j attacker).hp))) = []
          · simp only [attackTurn, hg, if_neg h1, if_neg h2, if_neg h3, if_pos h4]
          · have hidx_eq : (attackTurn rng1 t i ts).idx =
                (resolveAttack rng1 (ts.idx + 1) t attacker
                  (ts.targets.getD
                    (((List.range ts.targets.length).filter
                      (fun j => decide (0 < (ts.targets.getD j attacker).hp))).getD
                        (chooseIndex (rng1 ts.idx) ((List.range ts.targets.length).filter
                          (fun j => decide (0 < (ts.targets.getD j attacker).hp))).length) 0)
                    attacker)).2.2.2 := by
              simp only [attackTurn, hg, if_neg h1, if_neg h2, if_neg h3, if_neg h4]
            have hAgree2 : Agree rng1 rng2
                (resolveAttack rng1 (ts.idx + 1) t attacker
                  (ts.targets.getD
                    (((List.range ts.targets.length).filter
                      (fun j => decide (0 < (ts.targets.getD j attacker).hp))).getD
                        (chooseIndex (rng1 ts.idx) ((List.range ts.targets.length).filter
                          (fun j => decide (0 < (ts.targets.getD j attacker).hp))).length) 0)
                    attacker)).2.2.2 := by
              rw [← hidx_eq]
              exact h
            have hchoice : rng1 ts.idx = rng2 ts.idx := by
              apply h
              rw [hidx_eq]
              have := resolveAttack_idx_mono rng1 (ts.idx + 1) t attacker
                (ts.targets.getD
                  (((List.range ts.targets.length).filter
                    (fun j => decide (0 < (ts.targets.getD j attacker).hp))).getD
                      (chooseIndex (rng1 ts.idx) ((List.range ts.targets.length).filter
                        (fun j => decide (0 < (ts.targets.getD j attacker).hp))).length) 0)
                  attacker)
              omega
            have hra := resolveAttack_congr (ts.idx + 1) t attacker
              (ts.targets.getD
                (((List.range ts.targets.length).filter
                  (fun j => decide (0 < (ts.targets.getD j attacker).hp))).getD
                    (chooseIndex (rng1 ts.idx) ((List.range ts.targets.length).filter
                      (fun j => decide (0 < (ts.targets.getD j attacker).hp))).length) 0)
                attacker) hAgree2
            simp only [attackTurn, hg, if_neg h1, if_neg h2, if_neg h3, if_neg h4]
            rw [hra, hchoice]

theorem foldTurn_idx_mono (rng : ℕ → ℚ) (t : ℚ) (l : List ℕ) :
    ∀ ts : TurnState, ts.idx ≤ (l.foldl (fun acc i => attackTurn rng t i acc) ts).idx := by
  induction l with
  | nil => intro ts; exact le_refl _
  | cons a rest ih =>
    intro ts
    simp only [List.foldl_cons]
    exact le_trans (attackTurn_idx_mono rng t a ts) (ih _)

theorem foldTurn_congr {rng1 rng2 : ℕ → ℚ} (t : ℚ) (l : List ℕ) :
    ∀ ts : TurnState,
      Agree rng1 rng2 ((l.foldl (fun acc i => attackTurn rng1 t i acc) ts).idx) →
      l.foldl (fun acc i => attackTurn rng1 t i acc) ts =
        l.foldl (fun acc i => attackTurn rng2 t i acc) ts := by
  induction l with
  | nil => intro ts _; rfl
  | cons a rest ih =>
    intro ts h
    simp only [List.foldl_cons] at h ⊢
    have hmono := foldTurn_idx_mono rng1 t rest (attackTurn rng1 t a ts)
    have hstep : attackTurn rng1 t a ts = attackTurn rng2 t a ts :=
      attackTurn_congr t a ts (Agree_mono h hmono)
    rw [← hstep]
    exact ih _ h

theorem attackPhase_idx_mono (rng : ℕ → ℚ) (t : ℚ) (ts : TurnState) :
    ts.idx ≤ (attackPhase rng t ts).idx :=
  foldTurn_idx_mono rng t _ ts

theorem attackPhase_congr {rng1 rng2 : ℕ → ℚ} (t : ℚ) (ts : TurnState)
    (h : Agree rng1 rng2 (attackPhase rng1 t ts).idx) :
    attackPhase rng1 t ts = attackPhase rng2 t ts :=
  foldTurn_congr t _ ts h

theorem processRegen_idx (c : TickCtx) : (processRegen c).idx = c.idx := rfl

theorem runTick_idx_mono (rng : ℕ → ℚ) (n : ℕ) (c : TickCtx) :
    c.idx ≤ (runTick rng n c).idx := by
  unfold runTick
  simp only
  set c1 := if n % 10 = 0 then processRegen c else c with hc1
  have hidx1 : c1.idx = c.idx := by
    rw [hc1]; split <;> rfl
  set t := (n : ℚ) / 10
  have m1 := attackPhase_idx_mono rng t ⟨c1.team1, c1.team2, c1.idx, c1.events⟩
  have m2 := attackPhase_idx_mono rng t
    ⟨(attackPhase rng t ⟨c1.team1, c1.team2, c1.idx, c1.events⟩).targets,
     (attackPhase rng t ⟨c1.team1, c1.team2, c1.idx, c1.events⟩).myTeam,
     (attackPhase rng t ⟨c1.team1, c1.team2, c1.idx, c1.events⟩).idx,
     (attackPhase rng t ⟨c1.team1, c1.team2, c1.idx, c1.events⟩).events⟩
  simp only at m1 m2
  omega

theorem runTick_congr {rng1 rng2 : ℕ → ℚ} (n : ℕ) (c : TickCtx)
    (h : Agree rng1 rng2 (runTick rng1 n c).idx) :
    runTick rng1 n c = runTick rng2 n c := by
  unfold runTick at h ⊢
  simp only at h ⊢
  set c1 := if n % 10 = 0 then processRegen c else c with hc1
  set t := (n : ℚ) / 10
  set p1 := attackPhase rng1 t ⟨c1.team1, c1.team2, c1.idx, c1.events⟩ with hp1
  set p2 := attackPhase rng1 t ⟨p1.targets, p1.myTeam, p1.idx, p1.events⟩ with hp2
  have hm2 := attackPhase_idx_mono rng1 t ⟨p1.targets, p1.myTeam, p1.idx, p1.events⟩
  simp only at hm2
  rw [← hp2] at hm2
  have hph1 : attackPhase rng1 t ⟨c1.team1, c1.team2, c1.idx, c1.events⟩ =
      attackPhase rng2 t ⟨c1.team1, c1.team2, c1.idx, c1.events⟩ := by
    apply attackPhase_congr
    rw [← hp1]
    exact Agree_mono h hm2
  have hph2 : attackPhase rng1 t ⟨p1.targets, p1.myTeam, p1.idx, p1.events⟩ =
      attackPhase rng2 t ⟨p1.targets, p1.myTeam, p1.idx, p1.events⟩ := by
    apply attackPhase_congr
    rw [← hp2]
    exact h
  rw [← hph1, ← hp1, ← hph2, ← hp2]

theorem runBattle_idx_mono (rng : ℕ → ℚ) (fuel n : ℕ) (c : TickCtx) :
    c.idx ≤ (runBattle rng fuel n c).1.idx := by
  induction fuel generalizing n c with
  | zero => exact le_refl _
  | succ fuel ih =>
    by_cases hcond : (anyAlive (runTick rng n c).team1 && anyAlive (runTick rng n c).team2) = true
    · simp only [runBattle]
      rw [if_pos hcond]
      exact le_trans (runTick_idx_mono rng n c) (ih (n + 1) _)
    · simp only [runBattle]
      rw [if_neg hcond]
      exact runTick_idx_mono rng n c

theorem runBattle_congr {rng1 rng2 : ℕ → ℚ} (fuel n : ℕ) (c : TickCtx)
    (h : Agree rng1 rng2 (runBattle rng1 fuel n c).1.idx) :
    runBattle rng1 fuel n c = runBattle rng2 fuel n c := by
  induction fuel generalizing n c with
  | zero => rfl
  | succ fuel ih =>
    by_cases hcond : (anyAlive (runTick rng1 n c).team1 && anyAlive (runTick rng1 n c).team2) = true
    · have hmono : (runTick rng1 n c).idx ≤ (runBattle rng1 (fuel + 1) n c).1.idx := by
        simp only [runBattle]
        rw [if_pos hcond]
        exact runBattle_idx_mono rng1 fuel (n + 1) _
      have htick : runTick rng1 n c = runTick rng2 n c :=
        runTick_congr n c (Agree_mono h hmono)
      have hrest : runBattle rng1 fuel (n + 1) (runTick rng1 n c) =
          runBattle rng2 fuel (n + 1) (runTick rng1 n c) := by
        apply ih
        have heq : (runBattle rng1 (fuel + 1) n c).1.idx =
            (runBattle rng1 fuel (n + 1) (runTick rng1 n c)).1.idx := by
          simp only [runBattle]
          rw [if_pos hcond]
        rw [← heq]
        exact h
      simp only [runBattle]
      rw [if_pos hcond]
      rw [← htick]
      rw [if_pos hcond]
      exact hrest
    · have hmono : (runTick rng1 n c).idx ≤ (runBattle rng1 (fuel + 1) n c).1.idx := by
        simp only [runBattle]
        rw [if_neg hcond]
      have htick : runTick rng1 n c = runTick rng2 n c :=
        runTick_congr n c (Agree_mono h hmono)
      simp only [runBattle]
      rw [← htick]
      rw [if_neg hcond, if_neg hcond]

theorem init_hp_eq_max (w : Warrior) (item : Option Item) :
    (init_warrior_state w item).hp = (init_warrior_state w item).max_hp := rfl

theorem runBattle_break (rng : ℕ → ℚ) (fuel n : ℕ) (c : TickCtx)
    (h : (anyAlive (runTick rng n c).team1 && anyAlive (runTick rng n c).team2) = false) :
    runBattle rng (fuel + 1) n c = (runTick rng n c, n + 1) := by
  simp only [runBattle]
  rw [if_neg (by rw [h]; exact Bool.false_ne_true)]

theorem simulate_battle_empty_team1 (rng : ℕ → ℚ) (w : Warrior)
    (hcd : 0 < (init_warrior_state w none).cooldown)
    (hhp : 0 < (init_warrior_state w none).max_hp) :
    simulate_battle rng [] [(w, none)] =
      { team1 := [], team2 := [init_warrior_state w none], events := [],
        outcome := .team2Victory, ticks := 1, draws := 0 } := by
  set s := init_warrior_state w none with hs
  have hhp' : 0 < s.hp := by rw [init_hp_eq_max]; exact hhp
  have hiter : ¬(0 < s.hp ∧ s.hp < s.max_hp) := by
    rintro ⟨-, hlt⟩
    rw [← init_hp_eq_max] at hlt
    exact lt_irrefl _ hlt
  have hregen : processRegen ⟨[], [s], 0, []⟩ = ⟨[], [s], 0, []⟩ := by
    simp only [processRegen, regenTeam, regenOne]
    rw [if_neg hiter]
    rfl
  have hturn : attackTurn rng (0 : ℚ) 0 (⟨[s], [], 0, []⟩ : TurnState) =
      (⟨[s], [], 0, []⟩ : TurnState) := by
    have hget : ([s] : List CombatState)[0]? = some s := rfl
    simp only [attackTurn, hget]
    rw [if_neg (not_le.2 hhp')]
    have hstun : ¬((0 : ℚ) < s.stun_end) := by
      have hz : s.stun_end = 0 := rfl
      rw [hz]
      norm_num
    rw [if_neg hstun]
    have hready : ((0 : ℚ) < s.next_attack) := by
      have hz : s.next_attack = s.cooldown := rfl
      rw [hz]
      exact hcd
    rw [if_pos hready]
  have hphase1 : attackPhase rng (0 : ℚ) ⟨[], [s], 0, []⟩ = ⟨[], [s], 0, []⟩ := by
    simp [attackPhase]
  have hphase2 : attackPhase rng (0 : ℚ) ⟨[s], [], 0, []⟩ = ⟨[s], [], 0, []⟩ := by
    have hr1 : List.range 1 = [0] := rfl
    simp only [attackPhase, List.length_singleton, hr1, List.foldl_cons, List.foldl_nil]
    exact hturn
  have htick : runTick rng 0 ⟨[], [s], 0, []⟩ = ⟨[], [s], 0, []⟩ := by
    simp only [runTick]
    rw [show (((0 : ℕ) : ℚ) / 10) = (0 : ℚ) from by norm_num]
    rw [if_pos trivial]
    rw [hregen]
    simp only
    rw [hphase1]
    simp only
    rw [hphase2]
  have halive2 : anyAlive [s] = true := by
    have hd : decide (0 < s.hp) = true := decide_eq_true hhp'
    simp only [anyAlive, List.any_cons, List.any_nil, Bool.or_false]
    exact hd
  have hbreak : (anyAlive (runTick rng 0 ⟨[], [s], 0, []⟩).team1 &&
      anyAlive (runTick rng 0 ⟨[], [s], 0, []⟩).team2) = false := by
    rw [htick]
    rfl
  have hrun : runBattle rng 3000 0 ⟨[], [s], 0, []⟩ = (⟨[], [s], 0, []⟩, 1) := by
    rw [show (3000 : ℕ) = 2999 + 1 from rfl]
    rw [runBattle_break rng 2999 0 ⟨[], [s], 0, []⟩ hbreak]
    rw [htick]
  simp only [simulate_battle]
  rw [show ((([] : List (Warrior × Option Item)).map (fun p => init_warrior_state p.1 p.2)) :
      List CombatState) = [] from rfl]
  rw [show (([(w, none)] : List (Warrior × Option Item)).map
      (fun p => init_warrior_state p.1 p.2)) = [s] from rfl]
  rw [hrun]
  simp only [halive2]
  rfl

theorem stun_landing (rng : ℕ → ℚ) (idx : ℕ) (t : ℚ) (attacker target : CombatState)
    (ha : attacker.wtype = .tough) (hb : target.wtype = .dexterous)
    (hr : rng idx < 0.2) (hi : target.stun_immune ≤ t) :
    resolveMatchup rng idx t attacker target =
      (⟨false, 1, true, target.stun_diminish,
        [.stun attacker.name target.name target.stun_diminish], idx + 1⟩,
       { target with
         stun_end := t + target.stun_diminish
         stun_immune := t + target.stun_diminish + 1
         stun_diminish := target.stun_diminish * 0.5 }) := by
  simp [resolveMatchup, ha, hb, hr, hi, applyStun]

theorem three_stuns (s : CombatState) (t1 t2 t3 : ℚ)
    (hd : s.stun_diminish = 1) (h1 : s.stun_immune ≤ t1)
    (h2 : (applyStun t1 s).2.stun_immune ≤ t2)
    (h3 : (applyStun t2 (applyStun t1 s).2).2.stun_immune ≤ t3) :
    (applyStun t1 s).1 = 1 ∧
    (applyStun t2 (applyStun t1 s).2).1 = 0.5 ∧
    (applyStun t3 (applyStun t2 (applyStun t1 s).2).2).1 = 0.25 ∧
    (applyStun t1 s).2.stun_end < t2 ∧
    (applyStun t2 (applyStun t1 s).2).2.stun_end < t3 := by
  simp [applyStun, hd] at *
  norm_num
  constructor <;> linarith

theorem resolveMatchup_cases (rng : ℕ → ℚ) (idx : ℕ) (t : ℚ) (attacker target : CombatState) :
    ((resolveMatchup rng idx t attacker target).1.miss = true →
      attacker.wtype = .smart ∧ target.wtype = .dexterous) ∧
    ((resolveMatchup rng idx t attacker target).1.bonus_dmg ≠ 1 →
      (resolveMatchup rng idx t attacker target).1.bonus_dmg = 1.5 ∧
      attacker.wtype = .smart ∧ target.wtype = .tough) ∧
    ((resolveMatchup rng idx t attacker target).1.stun = true →
      attacker.wtype = .tough ∧ target.wtype = .dexterous) ∧
    (¬((resolveMatchup rng idx t attacker target).1.miss = true ∧
       (resolveMatchup rng idx t attacker target).1.bonus_dmg ≠ 1)) ∧
    (¬((resolveMatchup rng idx t attacker target).1.miss = true ∧
       (resolveMatchup rng idx t attacker target).1.stun = true)) ∧
    (¬((resolveMatchup rng idx t attacker target).1.bonus_dmg ≠ 1 ∧
       (resolveMatchup rng idx t attacker target).1.stun = true)) ∧
    (¬(attacker.wtype = .smart ∧ target.wtype = .dexterous) →
     ¬(attacker.wtype = .smart ∧ target.wtype = .tough) →
     ¬(attacker.wtype = .tough ∧ target.wtype = .dexterous) →
      resolveMatchup rng idx t attacker target = (⟨false, 1, false, 0, [], idx⟩, target)) := by
  cases ha : attacker.wtype <;> cases hb : target.wtype <;>
    simp [resolveMatchup, ha, hb, applyStun] <;> split_ifs <;> simp_all <;> norm_num

theorem resolveAttack_of_miss (rng : ℕ → ℚ) (idx : ℕ) (t : ℚ) (attacker target : CombatState)
    (hm : (resolveMatchup rng idx t attacker target).1.miss = true) :
    resolveAttack rng idx t attacker target =
      ({ attacker with next_attack := t + attacker.cooldown }, target,
        [.miss attacker.name target.name], idx + 1) := by
  have h := (resolveMatchup_cases rng idx t attacker target).1 hm
  simp only [resolveAttack]
  rcases h with ⟨ha, hb⟩
  by_cases hr : rng idx < 0.2
  · simp [resolveMatchup, ha, hb, hr]
  · exfalso
    simp [resolveMatchup, ha, hb, hr] at hm

theorem init_wTough :
    init_warrior_state wTough none =
      ⟨"TW", .tough, 250, 250, 1/2, 0, 10, 15, 2, 2, 0, 0, 1⟩ := by
  simp only [init_warrior_state, wTough]
  norm_num

theorem anyAlive_wSlow : anyAlive [init_warrior_state wSlow none] = true := by
  simp only [anyAlive, List.any_cons, List.any_nil, Bool.or_false]
  rw [init_wSlow]
  exact decide_eq_true (by norm_num)

theorem slow_battle :
    simulate_battle rngZero [(wSlow, none)] [(wSlow, none)] =
      ⟨[init_warrior_state wSlow none], [init_warrior_state wSlow none], [],
        Outcome.draw, 3000, 0⟩ := by
  have halive : (anyAlive ctxSlow.team1 && anyAlive ctxSlow.team2) = true := by
    show (anyAlive [init_warrior_state wSlow none] &&
      anyAlive [init_warrior_state wSlow none]) = true
    rw [anyAlive_wSlow]
    rfl
  have hrun : runBattle rngZero 3000 0 ctxSlow = (ctxSlow, 3000) := by
    have h := runBattle_stall rngZero ctxSlow halive
      (fun m hm => runTick_ctxSlow rngZero m hm) 3000 0 (le_refl _)
    simpa using h
  simp only [simulate_battle]
  rw [show (([(wSlow, none)] : List (Warrior × Option Item)).map
      (fun p => init_warrior_state p.1 p.2)) = [init_warrior_state wSlow none] from rfl]
  rw [show (⟨[init_warrior_state wSlow none], [init_warrior_state wSlow none], 0, []⟩ :
      TickCtx) = ctxSlow from rfl]
  rw [hrun]
  simp only [ctxSlow]
  rw [anyAlive_wSlow]
  rfl

/-- C1: the claim says the engine fails fast with a TeamSizeMismatch error
on empty or mismatched teams, running no tick and producing no event log.
The engine has no such error path: called with an empty team 1 it runs a
simulated tick and declares Team 2 victorious.  This counterexample shows
the battle with empty team 1 produces a victory outcome after one executed
tick (not zero ticks and not an error). -/
theorem team_size_mismatch_counterexample :
    (simulate_battle rngZero [] [(wTough, none)]).outcome = Outcome.team2Victory ∧
    (simulate_battle rngZero [] [(wTough, none)]).ticks = 1 ∧
    (simulate_battle rngZero [] [(wTough, none)]).ticks ≠ 0 := by
  have h := simulate_battle_empty_team1 rngZero wTough
    (by rw [show (init_warrior_state wTough none).cooldown = 2 from by rw [init_wTough]]
        norm_num)
    (by rw [show (init_warrior_state wTough none).max_hp = 250 from by rw [init_wTough]]
        norm_num)
  rw [h]
  refine ⟨rfl, rfl, ?_⟩
  norm_num

/-- C1 (amended): `simulate_battle` performs no team-size validation and
has no error result; size validation lives in the UI layer
(`run_simulation`), which never calls the engine on invalid selections.
Called directly with an empty team 1 and a one-member team 2 whose
combatant has positive cooldown and positive max hp, the engine executes
exactly one tick, emits no events, and declares Team 2 victorious. -/
theorem simulate_battle_empty_team_no_error (rng : ℕ → ℚ) (w : Warrior)
    (hcd : 0 < (init_warrior_state w none).cooldown)
    (hhp : 0 < (init_warrior_state w none).max_hp) :
    (simulate_battle rng [] [(w, none)]).outcome = Outcome.team2Victory ∧
    (simulate_battle rng [] [(w, none)]).events = [] ∧
    (simulate_battle rng [] [(w, none)]).ticks = 1 := by
  rw [simulate_battle_empty_team1 rng w hcd hhp]
  exact ⟨rfl, rfl, rfl⟩

/-- Witness for C1's amended theorem at the concrete warrior `wTough`. -/
theorem simulate_battle_empty_team_no_error_witness :
    (simulate_battle rngZero [] [(wTough, none)]).outcome = Outcome.team2Victory ∧
    (simulate_battle rngZero [] [(wTough, none)]).events = [] ∧
    (simulate_battle rngZero [] [(wTough, none)]).ticks = 1 :=
  simulate_battle_empty_team_no_error rngZero wTough
    (by rw [show (init_warrior_state wTough none).cooldown = 2 from by rw [init_wTough]]
        norm_num)
    (by rw [show (init_warrior_state wTough none).max_hp = 250 from by rw [init_wTough]]
        norm_num)

/-- C2: the claim says a simultaneous wipe of both teams in the same tick
is declared a Team 2 victory.  The outcome declaration (lines 699-706)
checks `not team2_alive` first, so with both alive-flags false it declares
Team 1 victorious, not Team 2. -/
theorem simultaneous_wipe_counterexample :
    declare_outcome false false = Outcome.team1Victory ∧
    declare_outcome false false ≠ Outcome.team2Victory := by
  constructor <;> decide

/-- C2 (amended): whenever the battle ends with no living member on either
team, the declared outcome is Team1Victory, because the declaration block
tests team 2's any-alive check first. -/
theorem simultaneous_wipe_team1_wins (rng : ℕ → ℚ)
    (team1 team2 : List (Warrior × Option Item))
    (h1 : anyAlive (simulate_battle rng team1 team2).team1 = false)
    (h2 : anyAlive (simulate_battle rng team1 team2).team2 = false) :
    (simulate_battle rng team1 team2).outcome = Outcome.team1Victory := by
  simp only [simulate_battle] at *
  rw [h1, h2]
  decide

/-- Witness for C2's amended theorem: the degenerate battle of two empty
teams ends with both alive-checks false and is declared a Team 1 victory. -/
theorem simultaneous_wipe_team1_wins_witness :
    (simulate_battle rngZero [] []).outcome = Outcome.team1Victory :=
  simultaneous_wipe_team1_wins rngZero [] [] rfl rfl

/-- C3: the derived combat state of every warrior and optional item matches
the spec's reference formulas, and the initial bookkeeping fields are
`hp = max_hp`, `next_attack = cooldown`, `stun_end = 0`, `stun_immune = 0`,
`stun_diminish = 1`. -/
theorem init_warrior_state_matches_spec (w : Warrior) (item : Option Item) :
    (init_warrior_state w item).max_hp = spec_max_hp w item ∧
    (init_warrior_state w item).hp_regen = spec_hp_regen w item ∧
    (init_warrior_state w item).defense = spec_defense w item ∧
    (init_warrior_state w item).min_dmg = spec_min_dmg w item ∧
    (init_warrior_state w item).max_dmg = spec_max_dmg w item ∧
    (init_warrior_state w item).cooldown = spec_cooldown w item ∧
    (init_warrior_state w item).hp = (init_warrior_state w item).max_hp ∧
    (init_warrior_state w item).next_attack = (init_warrior_state w item).cooldown ∧
    (init_warrior_state w item).stun_end = 0 ∧
    (init_warrior_state w item).stun_immune = 0 ∧
    (init_warrior_state w item).stun_diminish = 1 := by
  rcases item with _ | i <;>
    refine ⟨?_, ?_, ?_, ?_, ?_, ?_, ?_, ?_, ?_, ?_, ?_⟩ <;>
    simp [init_warrior_state, spec_max_hp, spec_hp_regen, spec_defense,
      spec_min_dmg, spec_max_dmg, spec_cooldown, itemBonus]

/-- C4: the damage resolver computes
`max(1, rolled × (1 − (0.06·defense)/(1 + 0.06·defense)) × multiplier)`,
and for non-negative defense and positive rolled damage the result is at
least 1 (the floor in fact holds unconditionally). -/
theorem final_damage_formula_and_floor (rolled defense mult : ℚ) :
    final_damage_calc rolled defense mult
      = max 1 (rolled * (1 - (0.06 * defense) / (1 + 0.06 * defense)) * mult) ∧
    (0 ≤ defense → 0 < rolled → 1 ≤ final_damage_calc rolled defense mult) := by
  refine ⟨rfl, fun _ _ => ?_⟩
  exact le_max_left _ _

/-- Witness for C4 at rolled damage 5, defense 0, multiplier 1. -/
theorem final_damage_formula_and_floor_witness :
    (0 : ℚ) ≤ 0 ∧ (0 : ℚ) < 5 ∧ 1 ≤ final_damage_calc 5 0 1 := by
  refine ⟨le_refl 0, by norm_num, ?_⟩
  exact (final_damage_formula_and_floor 5 0 1).2 (le_refl 0) (by norm_num)

/-- C5: when a stun lands (Tough attacker, Dexterous defender, successful
draw, current time at or past the defender's stun immunity), the stun
duration equals the defender's current `stun_diminish` and the defender's
state is updated to `stun_end = t + duration`,
`stun_immune = t + duration + 1`, halved `stun_diminish`; three consecutive
successful stuns starting from `stun_diminish = 1` last 1.0s, 0.5s, 0.25s,
and each stun window closes before the immunity window allows the next. -/
theorem stun_mechanics :
    (∀ (rng : ℕ → ℚ) (idx : ℕ) (t : ℚ) (attacker target : CombatState),
      attacker.wtype = .tough → target.wtype = .dexterous →
      rng idx < 0.2 → target.stun_immune ≤ t →
      resolveMatchup rng idx t attacker target =
        (⟨false, 1, true, target.stun_diminish,
          [.stun attacker.name target.name target.stun_diminish], idx + 1⟩,
         { target with
           stun_end := t + target.stun_diminish
           stun_immune := t + target.stun_diminish + 1
           stun_diminish := target.stun_diminish * 0.5 })) ∧
    (∀ (s : CombatState) (t1 t2 t3 : ℚ),
      s.stun_diminish = 1 → s.stun_immune ≤ t1 →
      (applyStun t1 s).2.stun_immune ≤ t2 →
      (applyStun t2 (applyStun t1 s).2).2.stun_immune ≤ t3 →
      (applyStun t1 s).1 = 1 ∧
      (applyStun t2 (applyStun t1 s).2).1 = 0.5 ∧
      (applyStun t3 (applyStun t2 (applyStun t1 s).2).2).1 = 0.25 ∧
      (applyStun t1 s).2.stun_end < t2 ∧
      (applyStun t2 (applyStun t1 s).2).2.stun_end < t3) :=
  ⟨fun rng idx t a tg ha hb hr hi => stun_landing rng idx t a tg ha hb hr hi,
   fun s t1 t2 t3 hd h1 h2 h3 => three_stuns s t1 t2 t3 hd h1 h2 h3⟩

/-- Witness for C5: a concrete Tough attacker stunning a concrete Dexterous
defender at time 5, and three consecutive stuns on the defender at times
0, 2, 4 with durations 1, 0.5, 0.25. -/
theorem stun_mechanics_witness :
    resolveMatchup rngZero 0 5 sTough sDex =
      (⟨false, 1, true, sDex.stun_diminish,
        [.stun sTough.name sDex.name sDex.stun_diminish], 0 + 1⟩,
       { sDex with
         stun_end := 5 + sDex.stun_diminish
         stun_immune := 5 + sDex.stun_diminish + 1
         stun_diminish := sDex.stun_diminish * 0.5 }) ∧
    (applyStun 0 sDex).1 = 1 ∧
    (applyStun 2 (applyStun 0 sDex).2).1 = 0.5 ∧
    (applyStun 4 (applyStun 2 (applyStun 0 sDex).2).2).1 = 0.25 := by
  have hpart1 := stun_mechanics.1 rngZero 0 5 sTough sDex rfl rfl
    (by norm_num [rngZero]) (by norm_num [sDex])
  have hpart2 := stun_mechanics.2 sDex 0 2 4 rfl (by norm_num [sDex])
    (by simp [applyStun, sDex]; norm_num)
    (by simp [applyStun, sDex]; norm_num)
  exact ⟨hpart1, hpart2.1, hpart2.2.1, hpart2.2.2.1⟩

/-- C6: hp never exceeds max_hp — the invariant is preserved by every run
of the simulation loop from any state satisfying it, and in particular
every combatant of the final state of any full battle satisfies it (the
initial states have hp = max_hp). -/
theorem hp_never_exceeds_max :
    (∀ (rng : ℕ → ℚ) (fuel n : ℕ) (c : TickCtx),
      hpInv c → hpInv (runBattle rng fuel n c).1) ∧
    (∀ (rng : ℕ → ℚ) (team1 team2 : List (Warrior × Option Item)) (s : CombatState),
      s ∈ (simulate_battle rng team1 team2).team1 ++
          (simulate_battle rng team1 team2).team2 →
      s.hp ≤ s.max_hp) := by
  constructor
  · exact fun rng fuel n c h => runBattle_hpInv rng fuel n c h
  · intro rng team1 team2 s hs
    have hinv0 : hpInv ⟨team1.map (fun p => init_warrior_state p.1 p.2),
        team2.map (fun p => init_warrior_state p.1 p.2), 0, []⟩ := by
      intro x hx
      rcases List.mem_append.1 hx with hx | hx <;>
        obtain ⟨p, -, rfl⟩ := List.mem_map.1 hx <;>
        exact le_of_eq (init_hp_eq_max p.1 p.2)
    have hfin := runBattle_hpInv rng 3000 0 _ hinv0
    simp only [simulate_battle] at hs
    exact hfin s hs

/-- Witness for C6: the invariant holds for a concrete starting context and
is preserved through a one-tick run, and the surviving combatant of a
concrete battle has hp ≤ max_hp. -/
theorem hp_never_exceeds_max_witness :
    hpInv (runBattle rngZero 1 0 ⟨[sTough], [sDex], 0, []⟩).1 ∧
    (init_warrior_state wTough none).hp ≤ (init_warrior_state wTough none).max_hp := by
  have hinv : hpInv ⟨[sTough], [sDex], 0, []⟩ := by
    intro s hs
    simp only [List.mem_append, List.mem_singleton] at hs
    rcases hs with rfl | rfl <;> norm_num [sTough, sDex]
  refine ⟨hp_never_exceeds_max.1 rngZero 1 0 _ hinv, ?_⟩
  apply hp_never_exceeds_max.2 rngZero [] [(wTough, none)]
  rw [simulate_battle_empty_team1 rngZero wTough
    (by rw [show (init_warrior_state wTough none).cooldown = 2 from by rw [init_wTough]]
        norm_num)
    (by rw [show (init_warrior_state wTough none).max_hp = 250 from by rw [init_wTough]]
        norm_num)]
  simp

/-- C7: per attack at most one special effect applies, fixed by the
attacker/defender type pair — a miss only for Smart→Dexterous, the ×1.5
multiplier only for Smart→Tough, a stun only for Tough→Dexterous, every
other pair neutral — and a missed attack leaves the defender untouched
while still advancing the attacker's next_attack by one cooldown. -/
theorem type_advantage_rules :
    (∀ (rng : ℕ → ℚ) (idx : ℕ) (t : ℚ) (attacker target : CombatState),
      ((resolveMatchup rng idx t attacker target).1.miss = true →
        attacker.wtype = .smart ∧ target.wtype = .dexterous) ∧
      ((resolveMatchup rng idx t attacker target).1.bonus_dmg ≠ 1 →
        (resolveMatchup rng idx t attacker target).1.bonus_dmg = 1.5 ∧
        attacker.wtype = .smart ∧ target.wtype = .tough) ∧
      ((resolveMatchup rng idx t attacker target).1.stun = true →
        attacker.wtype = .tough ∧ target.wtype = .dexterous) ∧
      (¬((resolveMatchup rng idx t attacker target).1.miss = true ∧
         (resolveMatchup rng idx t attacker target).1.bonus_dmg ≠ 1)) ∧
      (¬((resolveMatchup rng idx t attacker target).1.miss = true ∧
         (resolveMatchup rng idx t attacker target).1.stun = true)) ∧
      (¬((resolveMatchup rng idx t attacker target).1.bonus_dmg ≠ 1 ∧
         (resolveMatchup rng idx t attacker target).1.stun = true)) ∧
      (¬(attacker.wtype = .smart ∧ target.wtype = .dexterous) →
       ¬(attacker.wtype = .smart ∧ target.wtype = .tough) →
       ¬(attacker.wtype = .tough ∧ target.wtype = .dexterous) →
        resolveMatchup rng idx t attacker target = (⟨false, 1, false, 0, [], idx⟩, target))) ∧
    (∀ (rng : ℕ → ℚ) (idx : ℕ) (t : ℚ) (attacker target : CombatState),
      (resolveMatchup rng idx t attacker target).1.miss = true →
      resolveAttack rng idx t attacker target =
        ({ attacker with next_attack := t + attacker.cooldown }, target,
          [.miss attacker.name target.name], idx + 1)) :=
  ⟨fun rng idx t a tg => resolveMatchup_cases rng idx t a tg,
   fun rng idx t a tg hm => resolveAttack_of_miss rng idx t a tg hm⟩

/-- Witness for C7: a concrete Smart attacker misses a concrete Dexterous
defender (draw 0 < 0.2): the defender is returned unchanged and the
attacker's next_attack is advanced by its cooldown. -/
theorem type_advantage_rules_witness :
    (sSmart.wtype = .smart ∧ sDex.wtype = .dexterous) ∧
    resolveAttack rngZero 0 0 sSmart sDex =
      ({ sSmart with next_attack := 0 + sSmart.cooldown }, sDex,
        [.miss sSmart.name sDex.name], 0 + 1) := by
  have hm : (resolveMatchup rngZero 0 0 sSmart sDex).1.miss = true := by
    simp only [resolveMatchup, sSmart, sDex]
    norm_num [rngZero]
  exact ⟨(type_advantage_rules.1 rngZero 0 0 sSmart sDex).1 hm,
    type_advantage_rules.2 rngZero 0 0 sSmart sDex hm⟩

theorem simulate_team1_def (rng : ℕ → ℚ) (team1 team2 : List (Warrior × Option Item)) :
    (simulate_battle rng team1 team2).team1 =
    (runBattle rng 3000 0 ⟨team1.map (fun p => init_warrior_state p.1 p.2),
      team2.map (fun p => init_warrior_state p.1 p.2), 0, []⟩).1.team1 := rfl

theorem simulate_team2_def (rng : ℕ → ℚ) (team1 team2 : List (Warrior × Option Item)) :
    (simulate_battle rng team1 team2).team2 =
    (runBattle rng 3000 0 ⟨team1.map (fun p => init_warrior_state p.1 p.2),
      team2.map (fun p => init_warrior_state p.1 p.2), 0, []⟩).1.team2 := rfl

theorem simulate_ticks_def (rng : ℕ → ℚ) (team1 team2 : List (Warrior × Option Item)) :
    (simulate_battle rng team1 team2).ticks =
    (runBattle rng 3000 0 ⟨team1.map (fun p => init_warrior_state p.1 p.2),
      team2.map (fun p => init_warrior_state p.1 p.2), 0, []⟩).2 := rfl

theorem simulate_draws_def (rng : ℕ → ℚ) (team1 team2 : List (Warrior × Option Item)) :
    (simulate_battle rng team1 team2).draws =
    (runBattle rng 3000 0 ⟨team1.map (fun p => init_warrior_state p.1 p.2),
      team2.map (fun p => init_warrior_state p.1 p.2), 0, []⟩).1.idx := rfl

theorem simulate_outcome_def (rng : ℕ → ℚ) (team1 team2 : List (Warrior × Option Item)) :
    (simulate_battle rng team1 team2).outcome =
    declare_outcome
      (anyAlive (runBattle rng 3000 0 ⟨team1.map (fun p => init_warrior_state p.1 p.2),
        team2.map (fun p => init_warrior_state p.1 p.2), 0, []⟩).1.team1)
      (anyAlive (runBattle rng 3000 0 ⟨team1.map (fun p => init_warrior_state p.1 p.2),
        team2.map (fun p => init_warrior_state p.1 p.2), 0, []⟩).1.team2) := rfl

theorem simulate_battle_unfold (rng : ℕ → ℚ) (team1 team2 : List (Warrior × Option Item)) :
    simulate_battle rng team1 team2 =
      { team1 := (runBattle rng 3000 0 ⟨team1.map (fun p => init_warrior_state p.1 p.2),
          team2.map (fun p => init_warrior_state p.1 p.2), 0, []⟩).1.team1
        team2 := (runBattle rng 3000 0 ⟨team1.map (fun p => init_warrior_state p.1 p.2),
          team2.map (fun p => init_warrior_state p.1 p.2), 0, []⟩).1.team2
        events := (runBattle rng 3000 0 ⟨team1.map (fun p => init_warrior_state p.1 p.2),
          team2.map (fun p => init_warrior_state p.1 p.2), 0, []⟩).1.events
        outcome := declare_outcome
          (anyAlive (runBattle rng 3000 0 ⟨team1.map (fun p => init_warrior_state p.1 p.2),
            team2.map (fun p => init_warrior_state p.1 p.2), 0, []⟩).1.team1)
          (anyAlive (runBattle rng 3000 0 ⟨team1.map (fun p => init_warrior_state p.1 p.2),
            team2.map (fun p => init_warrior_state p.1 p.2), 0, []⟩).1.team2)
        ticks := (runBattle rng 3000 0 ⟨team1.map (fun p => init_warrior_state p.1 p.2),
          team2.map (fun p => init_warrior_state p.1 p.2), 0, []⟩).2
        draws := (runBattle rng 3000 0 ⟨team1.map (fun p => init_warrior_state p.1 p.2),
          team2.map (fun p => init_warrior_state p.1 p.2), 0, []⟩).1.idx } := rfl

theorem simulate_events_def (rng : ℕ → ℚ) (team1 team2 : List (Warrior × Option Item)) :
    (simulate_battle rng team1 team2).events =
    (runBattle rng 3000 0 ⟨team1.map (fun p => init_warrior_state p.1 p.2),
      team2.map (fun p => init_warrior_state p.1 p.2), 0, []⟩).1.events := rfl

/-- C8: the simulation clock advances in fixed 0.1 s ticks bounded by 300
simulated seconds — every battle executes at most 3000 ticks — and a battle
that ends with survivors on both teams ran the full 3000 ticks (the clock
reached 300) and is declared a draw. -/
theorem battle_bounded_and_draw (rng : ℕ → ℚ) (team1 team2 : List (Warrior × Option Item)) :
    (simulate_battle rng team1 team2).ticks ≤ 3000 ∧
    (anyAlive (simulate_battle rng team1 team2).team1 = true →
     anyAlive (simulate_battle rng team1 team2).team2 = true →
     (simulate_battle rng team1 team2).outcome = Outcome.draw ∧
     (simulate_battle rng team1 team2).ticks = 3000) := by
  constructor
  · rw [simulate_ticks_def]
    have h3 := runBattle_ticks_le rng 3000 0
      ⟨team1.map (fun p => init_warrior_state p.1 p.2),
       team2.map (fun p => init_warrior_state p.1 p.2), 0, []⟩
    omega
  · intro h1 h2
    rw [simulate_team1_def] at h1
    rw [simulate_team2_def] at h2
    constructor
    · rw [simulate_outcome_def, h1, h2]
      decide
    · rw [simulate_ticks_def]
      have h3 := runBattle_full rng 3000 0 _ h1 h2
      omega

/-- Witness for C8: the 1v1 battle of two `wSlow` warriors (cooldown 1000 s,
so nobody ever attacks) ends with both sides alive, in a draw, after
exactly 3000 ticks. -/
theorem battle_bounded_and_draw_witness :
    (simulate_battle rngZero [(wSlow, none)] [(wSlow, none)]).outcome = Outcome.draw ∧
    (simulate_battle rngZero [(wSlow, none)] [(wSlow, none)]).ticks = 3000 := by
  have h1 : anyAlive (simulate_battle rngZero [(wSlow, none)] [(wSlow, none)]).team1 = true := by
    rw [slow_battle]
    exact anyAlive_wSlow
  have h2 : anyAlive (simulate_battle rngZero [(wSlow, none)] [(wSlow, none)]).team2 = true := by
    rw [slow_battle]
    exact anyAlive_wSlow
  exact (battle_bounded_and_draw rngZero [(wSlow, none)] [(wSlow, none)]).2 h1 h2

/-- C9: the battle result is a function of the teams and the consumed
random draws alone — two streams that agree on every draw the first run
consumes produce identical results (event log, outcome, final states). -/
theorem simulate_battle_deterministic (rng1 rng2 : ℕ → ℚ)
    (team1 team2 : List (Warrior × Option Item))
    (h : Agree rng1 rng2 (simulate_battle rng1 team1 team2).draws) :
    simulate_battle rng1 team1 team2 = simulate_battle rng2 team1 team2 := by
  rw [simulate_draws_def] at h
  have hb := runBattle_congr 3000 0 _ h
  rw [simulate_battle_unfold, simulate_battle_unfold, hb]

/-- Witness for C9: the all-zero stream and the stream returning `0 * 1`
agree on every index, so the concrete 1v1 `wTough` battle run with either
stream yields the same result. -/
theorem simulate_battle_deterministic_witness :
    simulate_battle rngZero [(wTough, none)] [(wTough, none)] =
      simulate_battle rngZero2 [(wTough, none)] [(wTough, none)] :=
  simulate_battle_deterministic rngZero rngZero2 [(wTough, none)] [(wTough, none)]
    (fun k _ => by norm_num [rngZero, rngZero2])

/-- C10: an attacker that is alive, unstunned and attack-ready on a tick
where the opposing team has no living member is skipped with the whole
turn state unchanged — in particular its next_attack is not advanced, so it
is still ready on the next tick (next_attack ≤ t + 0.1). -/
theorem no_living_target_skip (rng : ℕ → ℚ) (t : ℚ) (i : ℕ) (ts : TurnState)
    (attacker : CombatState)
    (hget : ts.myTeam[i]? = some attacker)
    (halive : 0 < attacker.hp)
    (hstun : attacker.stun_end ≤ t)
    (hready : attacker.next_attack ≤ t)
    (hdead : ∀ s ∈ ts.targets, s.hp ≤ 0) :
    attackTurn rng t i ts = ts ∧ attacker.next_attack ≤ t + 1 / 10 := by
  constructor
  · simp only [attackTurn, hget]
    rw [if_neg (by linarith), if_neg (by linarith), if_neg (by linarith)]
    have hfilter : (List.range ts.targets.length).filter
        (fun j => decide (0 < (ts.targets.getD j attacker).hp)) = [] := by
      rw [List.filter_eq_nil_iff]
      intro j hj
      simp only [List.mem_range] at hj
      simp only [decide_eq_true_eq, not_lt]
      rw [List.getD_eq_getElem?_getD]
      rw [List.getElem?_eq_getElem hj]
      exact hdead _ (List.getElem_mem hj)
    rw [if_pos hfilter]
  · linarith

/-- Witness for C10: a ready concrete attacker facing a team whose only
member is defeated is skipped with no state change. -/
theorem no_living_target_skip_witness :
    attackTurn rngZero 0 0 ⟨[sTough], [sDexDead], 0, []⟩ =
      (⟨[sTough], [sDexDead], 0, []⟩ : TurnState) ∧
    sTough.next_attack ≤ 0 + 1 / 10 :=
  no_living_target_skip rngZero 0 0 ⟨[sTough], [sDexDead], 0, []⟩ sTough rfl
    (by norm_num [sTough])
    (by norm_num [sTough])
    (by norm_num [sTough])
    (by
      intro s hs
      simp only [List.mem_singleton] at hs
      rw [hs]
      norm_num [sDexDead])
